import Mathlib

/-!
Shallow embedding of the real-time conversation core of
`src/components/ConversationView.tsx` (capture/VAD, playback scheduling,
duplex-session lifecycle, transcript aggregation and the grammar-check
collaborator), together with proofs of the spec's testable properties.

Times, clock values and energies are modelled as rationals; audio sample
amplitudes as reals (the rms computation takes a square root).  Mutable
React refs become fields of an explicit state record; each handler in the
source becomes a pure state-transition function.
-/

namespace LiveTutor

/-- Role of a transcript entry; the source uses the string literals
`'user'` and `'model'` (the spec calls the latter "agent"). -/
inductive Role where
  | user
  | model
deriving DecidableEq, Repr

/-- TranscriptionEntry from `types.ts`: role, text, timestamp and an
optional correction attached later by the grammar checker. -/
structure TranscriptEntry where
  role : Role
  text : String
  timestamp : Nat
  correction : Option String
deriving DecidableEq, Repr

/-- TurnBuffer: the `transcriptionRef` accumulators
(`{ input: string; output: string }`, line 72). -/
structure TurnBuffer where
  input : String
  output : String
deriving DecidableEq, Repr

/-- Status of a skill challenge (`Challenge.status` in the source). -/
inductive ChallengeStatus where
  | active
  | evaluating
  | completed
deriving DecidableEq, Repr

/-- The part of the `Challenge` record that the grammar-check guard reads
(only `status` is consulted at line 184). -/
structure Challenge where
  status : ChallengeStatus
deriving DecidableEq, Repr

/-- PlaybackSource: a scheduled output buffer.  The source stores
`AudioBufferSourceNode`s; the fields here record what the scheduler set on
each one: the start time passed to `source.start`, the combined playback
rate assigned to `playbackRate.value`, and the buffer duration. -/
structure PlaybackSource where
  start : Rat
  rate : Rat
  duration : Rat
deriving DecidableEq, Repr

/-- The mutable state of the conversation component: one field per React
ref / state variable that the embedded handlers touch (lines 39-75 of the
source). `Option Unit` models a nullable handle (session, audio contexts,
gain node). -/
structure AppState where
  session : Option Unit
  audioCtxIn : Option Unit
  audioCtxOut : Option Unit
  outputGainNode : Option Unit
  sources : List PlaybackSource
  isActive : Bool
  isConnecting : Bool
  isPaused : Bool
  isSpeaking : Bool
  isUserTalkingLocal : Bool
  error : Option String
  nextStartTime : Rat
  transcription : TurnBuffer
  wasUserTalking : Bool
  lastSilenceTime : Rat
  entries : List TranscriptEntry
deriving DecidableEq, Repr

/-- Initial values of all refs and state hooks (lines 39-75):
`nextStartTimeRef = 0`, `transcriptionRef = {input:'', output:''}`,
`wasUserTalkingRef = false`, `lastSilenceTimeRef = 0`, all handles null,
all flags false, no entries. -/
def initialState : AppState :=
  { session := none
    audioCtxIn := none
    audioCtxOut := none
    outputGainNode := none
    sources := []
    isActive := false
    isConnecting := false
    isPaused := false
    isSpeaking := false
    isUserTalkingLocal := false
    error := none
    nextStartTime := 0
    transcription := ⟨"", ""⟩
    wasUserTalking := false
    lastSilenceTime := 0
    entries := [] }

/-- Session teardown, `cleanup` (lines 235-256): close and null the
session handle, close and null both audio contexts, null the output gain
node, stop every pending PlaybackSource and clear the set, and lower the
`isActive` / `isUserTalkingLocal` / `isSpeaking` indicators.  All close and
stop calls in the source swallow their own exceptions, so teardown is a
total function here.  Note it touches neither `nextStartTime` nor the
`transcription` accumulators nor the VAD refs. -/
def cleanup (s : AppState) : AppState :=
  { s with
    session := none
    audioCtxIn := none
    audioCtxOut := none
    outputGainNode := none
    sources := []
    isActive := false
    isUserTalkingLocal := false
    isSpeaking := false }

/-- Synchronous prefix of `startSession` (lines 258-262): bail out if a
connection attempt is already in flight, otherwise tear down any prior
session, clear the error and mark the component as connecting.  The rest
of `startSession` is asynchronous network setup that touches none of the
VAD or scheduling refs. -/
def startSession (s : AppState) : AppState :=
  if s.isConnecting then s
  else { cleanup s with error := none, isConnecting := true }

section Lifecycle

/-- C5: session teardown is idempotent — running `cleanup` twice yields
exactly the final state of running it once (and, being a total function,
raises no error), and the active PlaybackSource set is left empty. -/
theorem cleanup_idempotent_no_sources (s : AppState) :
    cleanup (cleanup s) = cleanup s ∧ (cleanup s).sources = [] :=
  ⟨rfl, rfl⟩

/-- Concrete state used by the C6 and C9 counterexamples: a session that
was torn down mid-utterance, with a pending buffer schedule, partially
accumulated transcription, and the VAD still in the Talking state. -/
def midUtteranceState : AppState :=
  { initialState with
    session := some ()
    audioCtxIn := some ()
    audioCtxOut := some ()
    outputGainNode := some ()
    sources := [⟨0, 1, 1⟩]
    isActive := true
    isSpeaking := true
    isUserTalkingLocal := true
    nextStartTime := 5
    transcription := ⟨"hola", "bonjour"⟩
    wasUserTalking := true
    lastSilenceTime := 42 }

/-- C6 counterexample: tearing down `midUtteranceState` leaves
`nextStartTime = 5` (initial value is `0`) and the TurnBuffer accumulators
still holding text (initial value is `⟨"", ""⟩`), so teardown does not
reset the scheduling or transcript accumulator state. -/
theorem cleanup_not_reset_cex :
    ¬((cleanup midUtteranceState).nextStartTime = 0 ∧
      (cleanup midUtteranceState).transcription = ⟨"", ""⟩) := by
  decide

/-- C6 amended: teardown closes the session and audio handles, stops and
clears every PlaybackSource, and lowers the activity indicators, but it
leaves `nextStartTime`, the TurnBuffer accumulators and the VAD refs
unchanged at their pre-teardown values rather than resetting them. -/
theorem cleanup_effect (s : AppState) :
    (cleanup s).session = none ∧
    (cleanup s).audioCtxIn = none ∧
    (cleanup s).audioCtxOut = none ∧
    (cleanup s).outputGainNode = none ∧
    (cleanup s).sources = [] ∧
    (cleanup s).isActive = false ∧
    (cleanup s).isUserTalkingLocal = false ∧
    (cleanup s).isSpeaking = false ∧
    (cleanup s).nextStartTime = s.nextStartTime ∧
    (cleanup s).transcription = s.transcription ∧
    (cleanup s).wasUserTalking = s.wasUserTalking ∧
    (cleanup s).lastSilenceTime = s.lastSilenceTime :=
  ⟨rfl, rfl, rfl, rfl, rfl, rfl, rfl, rfl, rfl, rfl, rfl, rfl⟩

/-- C9 counterexample: starting a new session from `midUtteranceState`
(whose previous session left the VAD in the Talking state with
`lastSilenceTime = 42`) does not reset the VAD refs — `wasUserTalking`
stays `true` and `lastSilenceTime` stays `42` instead of returning to
their initial values `false` and `0`. -/
theorem startSession_not_reset_vad_cex :
    ¬((startSession midUtteranceState).wasUserTalking = false ∧
      (startSession midUtteranceState).lastSilenceTime = 0) := by
  decide

/-- C9 amended: session start (when no connection attempt is in flight)
clears the UI "user talking" indicator via `cleanup`, but the VAD state
proper — the `wasUserTalking` flag and `lastSilenceTime` — carries over
unchanged from whatever the prior session left behind. -/
theorem startSession_vad_carryover (s : AppState) (h : s.isConnecting = false) :
    (startSession s).isUserTalkingLocal = false ∧
    (startSession s).wasUserTalking = s.wasUserTalking ∧
    (startSession s).lastSilenceTime = s.lastSilenceTime := by
  simp [startSession, cleanup, h]

/-- Witness for the C9 amended theorem at `midUtteranceState`. -/
theorem startSession_vad_carryover_witness :
    (startSession midUtteranceState).isUserTalkingLocal = false ∧
    (startSession midUtteranceState).wasUserTalking = midUtteranceState.wasUserTalking ∧
    (startSession midUtteranceState).lastSilenceTime = midUtteranceState.lastSilenceTime :=
  startSession_vad_carryover midUtteranceState rfl

end Lifecycle

section Vad

/-- One captured audio frame as seen by the VAD step: its root-mean-square
energy (computed at lines 299-304 of the source) and its arrival time
`now = Date.now()` (line 305). -/
structure Frame where
  rms : Rat
  time : Rat
deriving DecidableEq, Repr

/-- VadState `{talking, lastSilenceTimestamp}`: the pair of refs
`wasUserTalkingRef` / `lastSilenceTimeRef` (lines 74-75). -/
structure VadState where
  talking : Bool
  lastSilenceTime : Rat
deriving DecidableEq, Repr

/-- Initial VAD state: Silent, with `lastSilenceTimeRef = 0`. -/
def vadInit : VadState := ⟨false, 0⟩

/-- Events emitted on VAD transitions: the feedback cue plus UI update at
lines 312-314 ("speech-start") and 319-321 ("speech-stop"). -/
inductive VadEvent where
  | start
  | stop
deriving DecidableEq, Repr

/-- Opposite event, used to phrase strict alternation. -/
def VadEvent.flip : VadEvent → VadEvent
  | .start => .stop
  | .stop => .start

/-- One step of the VAD hysteresis machine (lines 310-323): a loud frame
(`rms > threshold`) refreshes `lastSilenceTime := now` and, when currently
Silent, transitions to Talking and emits "speech-start"; a quiet frame
transitions to Silent and emits "speech-stop" only when currently Talking
and `now - lastSilenceTime > hangoverDuration`; otherwise nothing
changes. -/
def vadStep (thr dur : Rat) (s : VadState) (f : Frame) : VadState × Option VadEvent :=
  if thr < f.rms then
    (⟨true, f.time⟩, if s.talking then none else some .start)
  else if s.talking = true ∧ dur < f.time - s.lastSilenceTime then
    (⟨false, s.lastSilenceTime⟩, some .stop)
  else
    (s, none)

/-- Run the VAD over a frame sequence, returning the final state and the
emitted events in order. -/
def vadRun (thr dur : Rat) (s : VadState) : List Frame → VadState × List VadEvent
  | [] => (s, [])
  | f :: fs =>
    let p := vadStep thr dur s f
    let q := vadRun thr dur p.1 fs
    (q.1, p.2.toList ++ q.2)

/-- Events emitted over a frame sequence, starting in the Silent state. -/
def vadEvents (thr dur : Rat) (fs : List Frame) : List VadEvent :=
  (vadRun thr dur vadInit fs).2

/-- alternatingFrom e evs means evs is exactly e, e.flip, e, … — a
strictly alternating sequence beginning with e (or empty). -/
def alternatingFrom : VadEvent → List VadEvent → Bool
  | _, [] => true
  | e, x :: xs => x == e && alternatingFrom e.flip xs

/-- Last frame with `rms > threshold` of a frame sequence, if any. -/
def lastLoudFrame (thr : Rat) : List Frame → Option Frame
  | [] => none
  | f :: fs =>
    match lastLoudFrame thr fs with
    | some g => some g
    | none => if thr < f.rms then some f else none

/-- Event the VAD may emit next from a given state: "speech-start" when
Silent, "speech-stop" when Talking. -/
def expectedNext (b : Bool) : VadEvent := if b then .stop else .start

lemma vadRun_alternating (thr dur : Rat) :
    ∀ (fs : List Frame) (s : VadState),
      alternatingFrom (expectedNext s.talking) (vadRun thr dur s fs).2 = true := by
  intro fs
  induction fs with
  | nil => intro s; simp [vadRun, alternatingFrom]
  | cons f fs ih =>
    intro s
    by_cases hl : thr < f.rms
    · by_cases ht : s.talking
      · simpa [vadRun, vadStep, hl, ht, expectedNext] using ih ⟨true, f.time⟩
      · have h1 := ih ⟨true, f.time⟩
        simp [expectedNext] at h1
        simp [vadRun, vadStep, hl, ht, expectedNext, alternatingFrom, VadEvent.flip, h1]
    · by_cases hs : s.talking = true ∧ dur < f.time - s.lastSilenceTime
      · have h1 := ih ⟨false, s.lastSilenceTime⟩
        simp [expectedNext] at h1
        simp [vadRun, vadStep, hl, hs, hs.1, expectedNext, alternatingFrom, VadEvent.flip, h1]
      · simpa [vadRun, vadStep, hl, hs] using ih s

/-- While the VAD is Talking, `lastSilenceTime` equals the arrival time of
the most recent loud frame (and the run has seen one, unless it started
Talking and saw none). -/
lemma vadRun_lastSilence_inv (thr dur : Rat) :
    ∀ (fs : List Frame) (s : VadState),
      (vadRun thr dur s fs).1.talking = true →
      (∃ g, lastLoudFrame thr fs = some g ∧
        (vadRun thr dur s fs).1.lastSilenceTime = g.time) ∨
      (lastLoudFrame thr fs = none ∧ s.talking = true ∧
        (vadRun thr dur s fs).1.lastSilenceTime = s.lastSilenceTime) := by
  intro fs
  induction fs with
  | nil => intro s h; right; exact ⟨rfl, h, rfl⟩
  | cons f fs ih =>
    intro s h
    have hrun : (vadRun thr dur s (f :: fs)).1 =
        (vadRun thr dur (vadStep thr dur s f).1 fs).1 := by
      simp [vadRun]
    rw [hrun] at h ⊢
    rcases ih (vadStep thr dur s f).1 h with ⟨g, hg, hlast⟩ | ⟨hnone, htalk, hlast⟩
    · left
      exact ⟨g, by simp [lastLoudFrame, hg], hlast⟩
    · by_cases hl : thr < f.rms
      · left
        refine ⟨f, by simp [lastLoudFrame, hnone, hl], ?_⟩
        rw [hlast]
        simp [vadStep, hl]
      · by_cases hs : s.talking = true ∧ dur < f.time - s.lastSilenceTime
        · exfalso
          have : (vadStep thr dur s f).1.talking = false := by
            simp [vadStep, hl, hs]
          rw [this] at htalk
          exact Bool.false_ne_true htalk
        · right
          have hstep : (vadStep thr dur s f).1 = s := by
            simp [vadStep, hl, hs]
          refine ⟨by simp [lastLoudFrame, hnone, hl], ?_, ?_⟩
          · rw [hstep] at htalk; exact htalk
          · exact hlast.trans (congrArg VadState.lastSilenceTime hstep)

/-- The run decomposes along an append of frame sequences: the state
threads through and the event streams concatenate. -/
lemma vadRun_append (thr dur : Rat) :
    ∀ (l₁ l₂ : List Frame) (s : VadState),
      vadRun thr dur s (l₁ ++ l₂) =
        ((vadRun thr dur (vadRun thr dur s l₁).1 l₂).1,
         (vadRun thr dur s l₁).2 ++ (vadRun thr dur (vadRun thr dur s l₁).1 l₂).2) := by
  intro l₁
  induction l₁ with
  | nil => intro l₂ s; simp [vadRun]
  | cons f l₁ ih => intro l₂ s; simp [vadRun, ih]

/-- C1: over any frame sequence processed from the Silent state, the
emitted "speech-start"/"speech-stop" events strictly alternate beginning
with "speech-start"; and whenever the step at some frame `f` (reached
after the preceding frames) emits "speech-stop", that frame is quiet
(`rms ≤ threshold`) and the time elapsed since the last preceding frame
with `rms > threshold` exceeds `hangoverDuration`. -/
theorem vad_alternation_and_stop_condition (thr dur : Rat) (fs : List Frame) :
    alternatingFrom .start (vadEvents thr dur fs) = true ∧
    ∀ pre f post, fs = pre ++ f :: post →
      (vadStep thr dur (vadRun thr dur vadInit pre).1 f).2 = some .stop →
      f.rms ≤ thr ∧
      ∃ g, lastLoudFrame thr pre = some g ∧ dur < f.time - g.time := by
  constructor
  · have h := vadRun_alternating thr dur fs vadInit
    simpa [vadEvents, expectedNext, vadInit] using h
  · intro pre f post _ hstop
    set s := (vadRun thr dur vadInit pre).1 with hsdef
    by_cases hl : thr < f.rms
    · exfalso
      by_cases ht : s.talking <;> simp [vadStep, hl, ht] at hstop
    · by_cases hs : s.talking = true ∧ dur < f.time - s.lastSilenceTime
      · refine ⟨le_of_not_lt hl, ?_⟩
        rcases vadRun_lastSilence_inv thr dur pre vadInit hs.1 with
          ⟨g, hg, hlast⟩ | ⟨_, hinit, _⟩
        · exact ⟨g, hg, by rw [← hlast]; exact hs.2⟩
        · exact absurd hinit (by simp [vadInit])
      · exfalso
        simp [vadStep, hl, hs] at hstop

/-- Loud frame at time 0 used by the C1 witness. -/
def exLoud : Frame := ⟨2, 0⟩

/-- Quiet frame at time 3 used by the C1 witness. -/
def exQuiet : Frame := ⟨0, 3⟩

/-- Witness for C1 with threshold 1 and hangover 2: the loud frame at
time 0 followed by the quiet frame at time 3 emits a "speech-stop" at the
quiet frame, which is indeed quiet and arrives more than 2 after the last
loud frame. -/
theorem vad_alternation_and_stop_condition_witness :
    ([exLoud, exQuiet] = [exLoud] ++ exQuiet :: []) ∧
    ((vadStep 1 2 (vadRun 1 2 vadInit [exLoud]).1 exQuiet).2 = some .stop) ∧
    (exQuiet.rms ≤ 1 ∧ ∃ g, lastLoudFrame 1 [exLoud] = some g ∧
      2 < exQuiet.time - g.time) := by
  have hstop : (vadStep 1 2 (vadRun 1 2 vadInit [exLoud]).1 exQuiet).2 = some .stop := by
    norm_num [vadStep, vadRun, vadInit, exLoud, exQuiet]
  exact ⟨rfl, hstop,
    (vad_alternation_and_stop_condition 1 2 [exLoud, exQuiet]).2
      [exLoud] exQuiet [] rfl hstop⟩

end Vad

section Scheduler

/-- Handling of one decoded audio buffer by the playback scheduler
(lines 336-357 of the source): raise the "agent speaking" indicator, pull
`nextStartTime` up to the output clock
(`nextStartTime = max(nextStartTime, ctx.currentTime)`), build a source
playing at the combined rate `speechRate * pitchFactor`, start it at
`nextStartTime`, advance `nextStartTime` by `duration / rate`, and add the
source to the active set.  Returns the new state together with the
PlaybackSource that was scheduled. -/
def scheduleBuffer (s : AppState) (clockNow d speechRate pitchFactor : Rat) :
    AppState × PlaybackSource :=
  let nst := max s.nextStartTime clockNow
  let rate := speechRate * pitchFactor
  let src : PlaybackSource := ⟨nst, rate, d⟩
  ({ s with
      isSpeaking := true
      nextStartTime := nst + d / rate
      sources := src :: s.sources }, src)

/-- Handling of an `interrupted` message (lines 360-365): stop every
pending source, clear the active set, reset `nextStartTime` to the
literal 0, and lower the "agent speaking" indicator. -/
def handleInterrupted (s : AppState) : AppState :=
  { s with sources := [], nextStartTime := 0, isSpeaking := false }

/-- Start times assigned to a sequence of decoded buffers, each given as a
pair (output-clock time at arrival, buffer duration), at a fixed speech
rate and pitch factor. -/
def schedStarts (speechRate pitchFactor : Rat) (s : AppState) :
    List (Rat × Rat) → List Rat
  | [] => []
  | (c, d) :: rest =>
    let p := scheduleBuffer s c d speechRate pitchFactor
    p.2.start :: schedStarts speechRate pitchFactor p.1 rest

lemma schedStarts_length (sr pf : Rat) :
    ∀ (bs : List (Rat × Rat)) (s : AppState),
      (schedStarts sr pf s bs).length = bs.length := by
  intro bs
  induction bs with
  | nil => intro s; simp [schedStarts]
  | cons b rest ih =>
    intro s
    obtain ⟨c, d⟩ := b
    simp [schedStarts, ih]

/-- When a buffer arrives no later than the moment the previous one ends
(its clock time is at most the previous start plus the previous scaled
duration), its start time is exactly the previous start plus the previous
scaled duration: playback is gap-free between those two buffers. -/
lemma schedStarts_consecutive (sr pf : Rat) :
    ∀ (bs : List (Rat × Rat)) (s : AppState) (i : ℕ), i + 1 < bs.length →
      (bs.getD (i+1) (0, 0)).1 ≤
        (schedStarts sr pf s bs).getD i 0 + (bs.getD i (0, 0)).2 / (sr * pf) →
      (schedStarts sr pf s bs).getD (i+1) 0 =
        (schedStarts sr pf s bs).getD i 0 + (bs.getD i (0, 0)).2 / (sr * pf) := by
  intro bs
  induction bs with
  | nil => intro s i h; simp at h
  | cons b rest ih =>
    intro s i h hle
    obtain ⟨c, d⟩ := b
    match i with
    | 0 =>
      match rest, h with
      | (c', d') :: rest', _ =>
        simp only [schedStarts, scheduleBuffer, List.getD_cons_succ,
          List.getD_cons_zero] at hle ⊢
        exact max_eq_left hle
    | i' + 1 =>
      have h' : i' + 1 < rest.length := by
        simpa using h
      simp only [schedStarts, List.getD_cons_succ] at hle ⊢
      exact ih _ i' h' hle

lemma sum_take_succ_snd (bs : List (Rat × Rat)) (i : ℕ) (h : i < bs.length) :
    ((bs.take (i+1)).map Prod.snd).sum =
      ((bs.take i).map Prod.snd).sum + (bs.getD i (0, 0)).2 := by
  rw [List.take_succ, List.getElem?_eq_getElem h, List.getD_eq_getElem bs (0, 0) h,
    Option.toList_some, List.map_append, List.sum_append, List.map_singleton,
    List.sum_singleton]

/-- C2: each decoded buffer of duration `d` arriving with the output
clock at `clockNow` is scheduled to start at
`max(nextStartTime, clockNow)` with playback rate
`speechRate * pitchFactor`, and `nextStartTime` becomes
`start + d / rate`; consequently, over any buffer sequence at fixed rates
in which every later buffer arrives before the previous one finishes, the
i-th start time equals the first start time plus the sum of the previous
scaled durations. -/
theorem scheduler_gap_free (sr pf : Rat) (s : AppState) (c d : Rat)
    (bs : List (Rat × Rat)) :
    ((scheduleBuffer s c d sr pf).2.start = max s.nextStartTime c ∧
     (scheduleBuffer s c d sr pf).2.rate = sr * pf ∧
     (scheduleBuffer s c d sr pf).1.nextStartTime =
       max s.nextStartTime c + d / (sr * pf)) ∧
    ((∀ i, i + 1 < bs.length →
        (bs.getD (i+1) (0, 0)).1 ≤
          (schedStarts sr pf s bs).getD i 0 + (bs.getD i (0, 0)).2 / (sr * pf)) →
      ∀ i, i < bs.length →
        (schedStarts sr pf s bs).getD i 0 =
          (schedStarts sr pf s bs).getD 0 0 +
            ((bs.take i).map Prod.snd).sum / (sr * pf)) := by
  refine ⟨⟨rfl, rfl, rfl⟩, ?_⟩
  intro hyp i
  induction i with
  | zero => intro _; simp
  | succ i ih =>
    intro h
    have hi : i < bs.length := by omega
    rw [schedStarts_consecutive sr pf bs s i h (hyp i h), ih hi,
      sum_take_succ_snd bs i hi, add_div, add_assoc]

/-- Concrete back-to-back buffer sequence for the C2 witness: three
buffers of durations 2, 3, 1, each arriving while the previous one is
still playing, at unit speech rate and pitch factor. -/
def exBufs : List (Rat × Rat) := [(0, 2), (1, 3), (2, 1)]

/-- Witness for C2 on `exBufs`: the arrival hypothesis holds, and the
third start time (5) equals the first start time (0) plus the sum (5) of
the previous durations. -/
theorem scheduler_gap_free_witness :
    (∀ i, i + 1 < exBufs.length →
      (exBufs.getD (i+1) (0, 0)).1 ≤
        (schedStarts 1 1 initialState exBufs).getD i 0 +
          (exBufs.getD i (0, 0)).2 / (1 * 1)) ∧
    (schedStarts 1 1 initialState exBufs).getD 2 0 =
      (schedStarts 1 1 initialState exBufs).getD 0 0 +
        ((exBufs.take 2).map Prod.snd).sum / (1 * 1) := by
  have hyp : ∀ i, i + 1 < exBufs.length →
      (exBufs.getD (i+1) (0, 0)).1 ≤
        (schedStarts 1 1 initialState exBufs).getD i 0 +
          (exBufs.getD i (0, 0)).2 / (1 * 1) := by
    intro i hi
    have hcases : i = 0 ∨ i = 1 := by
      simp [exBufs] at hi
      omega
    rcases hcases with rfl | rfl <;>
      norm_num [exBufs, schedStarts, scheduleBuffer, initialState, max_def]
  exact ⟨hyp, (scheduler_gap_free 1 1 initialState 0 0 exBufs).2 hyp 2
    (by norm_num [exBufs])⟩

/-- C3 counterexample: with the output clock at time 2, handling an
`interrupted` message in `midUtteranceState` resets `nextStartTime` to
the literal 0, which is not the current clock time 2. -/
theorem interrupted_nextStartTime_cex :
    (handleInterrupted midUtteranceState).nextStartTime = 0 ∧
    (handleInterrupted midUtteranceState).nextStartTime ≠ 2 := by
  constructor
  · rfl
  · norm_num [handleInterrupted, midUtteranceState, initialState]

/-- C3 amended: after an `interrupted` message every PlaybackSource has
been stopped and removed (the active set is empty), the "agent speaking"
indicator is cleared, and `nextStartTime` is reset to 0 — so the next
buffer, arriving at any non-negative output-clock time, is scheduled to
start exactly at the current clock time rather than at the
pre-interruption `nextStartTime`. -/
theorem interrupted_flush (s : AppState) :
    (handleInterrupted s).sources = [] ∧
    (handleInterrupted s).isSpeaking = false ∧
    (handleInterrupted s).nextStartTime = 0 ∧
    ∀ c d sr pf : Rat, 0 ≤ c →
      (scheduleBuffer (handleInterrupted s) c d sr pf).2.start = c := by
  refine ⟨rfl, rfl, rfl, ?_⟩
  intro c d sr pf hc
  simp [scheduleBuffer, handleInterrupted, max_eq_right hc]

/-- Witness for the amended C3 theorem: from `midUtteranceState` (where
`nextStartTime` was 5), after the interruption a buffer arriving at clock
time 2 starts at 2. -/
theorem interrupted_flush_witness :
    (0 : Rat) ≤ 2 ∧
    (scheduleBuffer (handleInterrupted midUtteranceState) 2 1 1 1).2.start = 2 :=
  ⟨by norm_num, (interrupted_flush midUtteranceState).2.2.2 2 1 1 1 (by norm_num)⟩

end Scheduler

section Transcript

/-- Handling of a `turnComplete` message (lines 373-385 of the source):
read the TurnBuffer; if the accumulated input text is non-empty after
trimming, append one user TranscriptEntry carrying the raw accumulated
input (the fire-and-forget collaborator calls this also triggers are
modelled separately by `checkGrammar`); independently, if the accumulated
output text is non-empty after trimming, append one agent ("model")
entry; finally clear both accumulators.  `now` and `now2` are the two
`Date.now()` readings. -/
def handleTurnComplete (s : AppState) (now now2 : Nat) : AppState :=
  let entries1 :=
    if s.transcription.input.trim ≠ "" then
      s.entries ++ [⟨.user, s.transcription.input, now, none⟩]
    else s.entries
  let entries2 :=
    if s.transcription.output.trim ≠ "" then
      entries1 ++ [⟨.model, s.transcription.output, now2, none⟩]
    else entries1
  { s with entries := entries2, transcription := ⟨"", ""⟩ }

/-- C4: processing `turnComplete` only appends (the pre-existing entries
survive unchanged as a prefix of the result), appends exactly one user
entry iff the accumulated input is non-empty after trimming,
independently exactly one agent entry iff the accumulated output is
non-empty after trimming, appends nothing when both accumulators trim to
empty, and always clears the TurnBuffer. -/
theorem turnComplete_finalization (s : AppState) (now now2 : Nat) :
    ((handleTurnComplete s now now2).entries.take s.entries.length = s.entries) ∧
    (((handleTurnComplete s now now2).entries.drop s.entries.length).countP
        (fun e => e.role == Role.user) =
      if s.transcription.input.trim = "" then 0 else 1) ∧
    (((handleTurnComplete s now now2).entries.drop s.entries.length).countP
        (fun e => e.role == Role.model) =
      if s.transcription.output.trim = "" then 0 else 1) ∧
    (s.transcription.input.trim = "" ∧ s.transcription.output.trim = "" →
      (handleTurnComplete s now now2).entries = s.entries) ∧
    (handleTurnComplete s now now2).transcription = ⟨"", ""⟩ := by
  by_cases hin : s.transcription.input.trim = "" <;>
    by_cases hout : s.transcription.output.trim = "" <;>
      simp [handleTurnComplete, hin, hout, List.append_assoc,
        List.take_left, List.drop_left, List.countP_cons, List.countP_nil]

/-- Accumulator state for the C4 witness: the user side trims to a
non-empty text, the agent side is all-whitespace. -/
def exTurnState : AppState :=
  { initialState with transcription := ⟨"hi there", " "⟩ }

/-- Witness for C4 at `exTurnState`: exactly one user entry and no agent
entry are appended, and the buffer is cleared. -/
theorem turnComplete_finalization_witness :
    ((handleTurnComplete exTurnState 1 2).entries.take exTurnState.entries.length =
      exTurnState.entries) ∧
    (((handleTurnComplete exTurnState 1 2).entries.drop
        exTurnState.entries.length).countP (fun e => e.role == Role.user) =
      if exTurnState.transcription.input.trim = "" then 0 else 1) ∧
    (((handleTurnComplete exTurnState 1 2).entries.drop
        exTurnState.entries.length).countP (fun e => e.role == Role.model) =
      if exTurnState.transcription.output.trim = "" then 0 else 1) ∧
    (exTurnState.transcription.input.trim = "" ∧
        exTurnState.transcription.output.trim = "" →
      (handleTurnComplete exTurnState 1 2).entries = exTurnState.entries) ∧
    (handleTurnComplete exTurnState 1 2).transcription = ⟨"", ""⟩ :=
  turnComplete_finalization exTurnState 1 2

end Transcript

section Grammar

/-- Attachment of a grammar-checker result (lines 210-212): map over the
entries, giving every entry whose timestamp matches the finalized text's
timestamp the returned correction and leaving all other entries alone. -/
def attachCorrection (corrected : String) (timestamp : Nat)
    (entries : List TranscriptEntry) : List TranscriptEntry :=
  entries.map fun e =>
    if e.timestamp = timestamp then { e with correction := some corrected } else e

/-- Placeholder entry used as the out-of-range default for `List.getD`. -/
def defaultEntry : TranscriptEntry := ⟨.user, "", 0, none⟩

/-- C8: attaching a correction keyed by timestamp `t` preserves the
number of entries and the role, text and timestamp of every entry; every
entry whose timestamp differs from `t` is completely unchanged, and every
entry whose timestamp equals `t` gets exactly the returned correction in
its correction field. -/
theorem attachCorrection_frame (corrected : String) (t : Nat)
    (entries : List TranscriptEntry) :
    (attachCorrection corrected t entries).length = entries.length ∧
    ∀ i, i < entries.length →
      ((attachCorrection corrected t entries).getD i defaultEntry).role =
        (entries.getD i defaultEntry).role ∧
      ((attachCorrection corrected t entries).getD i defaultEntry).text =
        (entries.getD i defaultEntry).text ∧
      ((attachCorrection corrected t entries).getD i defaultEntry).timestamp =
        (entries.getD i defaultEntry).timestamp ∧
      ((entries.getD i defaultEntry).timestamp ≠ t →
        (attachCorrection corrected t entries).getD i defaultEntry =
          entries.getD i defaultEntry) ∧
      ((entries.getD i defaultEntry).timestamp = t →
        ((attachCorrection corrected t entries).getD i defaultEntry).correction =
          some corrected) := by
  constructor
  · simp [attachCorrection]
  · intro i hi
    have hlen : i < (attachCorrection corrected t entries).length := by
      simpa [attachCorrection] using hi
    rw [List.getD_eq_getElem _ _ hlen, List.getD_eq_getElem _ _ hi]
    simp only [attachCorrection, List.getElem_map]
    by_cases ht : entries[i].timestamp = t <;> simp [ht]

/-- Two finalized entries with distinct timestamps, for the C8 witness. -/
def exEntries : List TranscriptEntry :=
  [⟨.user, "je suis aller", 1, none⟩, ⟨.model, "bien", 2, none⟩]

/-- Witness for C8 on `exEntries`: attaching a correction keyed by
timestamp 1 sets the correction of the first entry and leaves the second
entry (timestamp 2) completely unchanged. -/
theorem attachCorrection_frame_witness :
    ((exEntries.getD 0 defaultEntry).timestamp = 1) ∧
    ((attachCorrection "je suis allé" 1 exEntries).getD 0 defaultEntry).correction =
      some "je suis allé" ∧
    ((exEntries.getD 1 defaultEntry).timestamp ≠ 1) ∧
    (attachCorrection "je suis allé" 1 exEntries).getD 1 defaultEntry =
      exEntries.getD 1 defaultEntry :=
  ⟨rfl,
    ((attachCorrection_frame "je suis allé" 1 exEntries).2 0 (by decide)).2.2.2.2 rfl,
    by decide,
    ((attachCorrection_frame "je suis allé" 1 exEntries).2 1 (by decide)).2.2.2.1
      (by decide)⟩

/-- Whether a skill challenge is currently in the active state: the guard
read at line 184 (`activeChallenge && activeChallenge.status === 'active'`). -/
def challengeIsActive : Option Challenge → Bool
  | some ch => ch.status == .active
  | none => false

/-- The grammar-check collaborator call (lines 182-217), with the
text-completion service abstracted as a response oracle: bail out without
issuing any request when the text is empty or splits on a space into
fewer than two fields, or while a challenge is in the active state;
otherwise issue the request and, when the service returns a corrected
text, attach it to the entries keyed by timestamp.  Returns whether a
request was issued, together with the resulting entries. -/
def checkGrammar (activeChallenge : Option Challenge) (text : String)
    (timestamp : Nat) (respond : String → Option String)
    (entries : List TranscriptEntry) : Bool × List TranscriptEntry :=
  if text = "" ∨ (text.splitOn " ").length < 2 then (false, entries)
  else if challengeIsActive activeChallenge then (false, entries)
  else
    match respond text with
    | some corrected => (true, attachCorrection corrected timestamp entries)
    | none => (true, entries)

/-- C10: for an empty text, a text with fewer than two space-separated
fields, or any text arriving while a challenge is in the active state,
the grammar check issues no request and leaves every entry unchanged, so
no correction is ever attached. -/
theorem checkGrammar_guard (ch : Option Challenge) (text : String) (t : Nat)
    (respond : String → Option String) (entries : List TranscriptEntry)
    (h : text = "" ∨ (text.splitOn " ").length < 2 ∨ challengeIsActive ch = true) :
    checkGrammar ch text t respond entries = (false, entries) := by
  rcases h with h | h | h
  · rw [checkGrammar, if_pos (Or.inl h)]
  · rw [checkGrammar, if_pos (Or.inr h)]
  · by_cases hg : text = "" ∨ (text.splitOn " ").length < 2
    · rw [checkGrammar, if_pos hg]
    · rw [checkGrammar, if_neg hg, if_pos h]

/-- Witness for C10: while a challenge is active, even a well-formed
two-word text issues no request and attaches nothing, whatever the
service would have answered. -/
theorem checkGrammar_guard_witness :
    (challengeIsActive (some ⟨ChallengeStatus.active⟩) = true) ∧
    checkGrammar (some ⟨ChallengeStatus.active⟩) "hello there" 7
      (fun _ => some "fixed") exEntries = (false, exEntries) :=
  ⟨rfl, checkGrammar_guard _ _ _ _ _ (Or.inr (Or.inr rfl))⟩

end Grammar

section GainRms

/-- Scalar gain applied in place to every sample of a frame
(line 301: `inputData[i] *= currentGain`). -/
def applyGain (g : Real) (xs : List Real) : List Real :=
  xs.map fun x => g * x

/-- Sum of squared samples (accumulated at line 302). -/
def sumSq (xs : List Real) : Real :=
  (xs.map fun x => x * x).sum

/-- Root-mean-square energy of a frame
(line 304: `Math.sqrt(sum / inputData.length)`). -/
noncomputable def rms (xs : List Real) : Real :=
  Real.sqrt (sumSq xs / xs.length)

/-- The capture step of `onaudioprocess` (lines 296-304 and 325): the
gain is applied to the samples in place, the rms is measured on the
gain-adjusted samples, and those same gain-adjusted samples are the ones
encoded and sent (`createPcmBlob(inputData)`).  Returns the measured rms
together with the frame handed to the encoder. -/
noncomputable def processFrame (g : Real) (xs : List Real) : Real × List Real :=
  let adjusted := applyGain g xs
  (rms adjusted, adjusted)

lemma sumSq_cons (x : Real) (xs : List Real) :
    sumSq (x :: xs) = x * x + sumSq xs := by
  simp [sumSq]

lemma sumSq_applyGain (g : Real) (xs : List Real) :
    sumSq (applyGain g xs) = g ^ 2 * sumSq xs := by
  induction xs with
  | nil => simp [sumSq, applyGain]
  | cons x xs ih =>
    rw [show applyGain g (x :: xs) = (g * x) :: applyGain g xs from rfl,
      sumSq_cons, sumSq_cons, ih]
    ring

lemma rms_applyGain (g : Real) (xs : List Real) (hg : 0 ≤ g) :
    rms (applyGain g xs) = g * rms xs := by
  unfold rms
  rw [sumSq_applyGain,
    show (applyGain g xs).length = xs.length from List.length_map xs _,
    mul_div_assoc, Real.sqrt_mul (sq_nonneg g), Real.sqrt_sq hg]

/-- C7: for every gain g > 0, the capture step hands the encoder exactly
the gain-adjusted samples and measures the rms on those same samples, and
that measured rms equals exactly g times the rms of the original frame. -/
theorem gain_linearity (g : Real) (xs : List Real) (hg : 0 < g) :
    processFrame g xs = (g * rms xs, applyGain g xs) := by
  show (rms (applyGain g xs), applyGain g xs) = (g * rms xs, applyGain g xs)
  rw [rms_applyGain g xs hg.le]

/-- Witness for C7 at gain 2 on a concrete two-sample frame. -/
theorem gain_linearity_witness :
    (0 : Real) < 2 ∧
    processFrame 2 [1, 0] = (2 * rms [1, 0], applyGain 2 [1, 0]) :=
  ⟨by norm_num, gain_linearity 2 [1, 0] (by norm_num)⟩

end GainRms

end LiveTutor
